import Mathlib

/-!
Verification development for the tabular-data cleaning and validation toolkit
(`research_data_lib.py`): a shallow embedding of the Type Caster
(`cast_row_types`) and the Dataset Validator (`validate_dataset`), together
with theorems settling the specification claims about them.

Modelling conventions:
* Python cell values are embedded as the inductive type `Val`
  (None, str, int, float, bool, datetime).  Python floats are modelled as
  exact rationals (`PyRat`): every float literal the program parses or
  prints is an exact decimal, so the visible behaviour relevant to the
  claims is unchanged.  Binary rounding, infinities, NaN and underscore
  digit separators are outside this value universe.
* Rows, type maps and rule sets are association lists (Python dicts preserve
  insertion order; keys are unique, which appears as `Nodup` hypotheses
  where a theorem needs it).
* Regular-expression patterns appear pre-compiled as `Regex` syntax trees;
  `re.fullmatch` is modelled by a Brzozowski-derivative matcher that accepts
  exactly the whole-string matches.
* All functions are total Lean definitions: the Python `try/except` failure
  paths appear as `Option`, and raised structural errors appear as `Except`
  in the dynamically-checked wrapper `validate_dataset_dyn`, whose arguments
  are arbitrary values of the universe (lists, dicts, scalars).
-/

/-- Exact rational number standing for a Python `float`.  Kept normalized by
the smart constructor `PyRat.norm`; arithmetic is elementary so that every
concrete computation reduces in the kernel. -/
structure PyRat where
  num : Int
  den : Nat
deriving DecidableEq, Repr

/-- Normalized rational `n / d` (for `d ≠ 0`; `d = 0` is unreachable from
the program and mapped to `0`). -/
def PyRat.norm (n : Int) (d : Nat) : PyRat :=
  if d = 0 then ⟨0, 1⟩
  else
    let g := Nat.gcd n.natAbs d
    ⟨Int.tdiv n (g : Int), d / g⟩

/-- Embed an integer. -/
def PyRat.ofInt (n : Int) : PyRat := ⟨n, 1⟩

/-- Numeric equality (Python `==` between numbers), independent of
representation. -/
def PyRat.numEq (a b : PyRat) : Bool := a.num * (b.den : Int) = b.num * (a.den : Int)

/-- Numeric strict order (Python `<` between numbers). -/
def PyRat.blt (a b : PyRat) : Bool := a.num * (b.den : Int) < b.num * (a.den : Int)

/-- Calendar date-time value produced by the `datetime:<fmt>` cast
(`datetime.datetime` restricted to the fields the program's formats use). -/
structure DateTime where
  year : Nat
  month : Nat
  day : Nat
  hour : Nat
  minute : Nat
  second : Nat
deriving DecidableEq, Repr

/-- Regular expression syntax tree.  Rule patterns appear in this
pre-compiled form (string pattern compilation is `re` library code); the
matcher below gives `re.fullmatch` semantics: the entire string must match. -/
inductive Regex where
  | emp
  | eps
  | cls (ranges : List (Char × Char))
  | cat (r1 r2 : Regex)
  | alt (r1 r2 : Regex)
  | star (r : Regex)
deriving DecidableEq, Repr

/-- Does the regex accept the empty string? -/
def Regex.nullable : Regex → Bool
  | .emp => false
  | .eps => true
  | .cls _ => false
  | .cat a b => a.nullable && b.nullable
  | .alt a b => a.nullable || b.nullable
  | .star _ => true

/-- Brzozowski derivative with respect to one character. -/
def Regex.deriv : Regex → Char → Regex
  | .emp, _ => .emp
  | .eps, _ => .emp
  | .cls rs, c => if rs.any (fun p => decide (p.1 ≤ c) && decide (c ≤ p.2)) then .eps else .emp
  | .cat a b, c =>
    if a.nullable then .alt (.cat (a.deriv c) b) (b.deriv c) else .cat (a.deriv c) b
  | .alt a b, c => .alt (a.deriv c) (b.deriv c)
  | .star a, c => .cat (a.deriv c) (.star a)

/-- `re.fullmatch(pattern, s) is not None`: the whole string matches. -/
def re_fullmatch (r : Regex) (s : String) : Bool :=
  (s.toList.foldl Regex.deriv r).nullable

/-- `r+` (one or more repetitions). -/
def Regex.plus (r : Regex) : Regex := .cat r (.star r)

/-- The character class `[0-9]`. -/
def digitClass : Regex := Regex.cls [('0', '9')]

/-- The universe of Python cell values handled by the caster and validator:
the scalars the program converts and checks, plus list and dict container
cells (which the validator accepts and passes through its checks untouched)
and compiled regex patterns (which appear as rule constraint values). -/
inductive Val where
  | none
  | str (s : String)
  | int (n : Int)
  | float (q : PyRat)
  | bool (b : Bool)
  | date (d : DateTime)
  | vlist (xs : List Val)
  | vdict (kvs : List (String × Val))
  | pat (r : Regex)
deriving Repr

mutual
/-- Decidable equality for the nested value universe (written by hand:
`deriving` does not handle the nested `List` occurrences). -/
def valDecEq : (a b : Val) → Decidable (a = b)
  | .none, .none => isTrue rfl
  | .none, .str _ => isFalse (fun h => Val.noConfusion h)
  | .none, .int _ => isFalse (fun h => Val.noConfusion h)
  | .none, .float _ => isFalse (fun h => Val.noConfusion h)
  | .none, .bool _ => isFalse (fun h => Val.noConfusion h)
  | .none, .date _ => isFalse (fun h => Val.noConfusion h)
  | .none, .vlist _ => isFalse (fun h => Val.noConfusion h)
  | .none, .vdict _ => isFalse (fun h => Val.noConfusion h)
  | .none, .pat _ => isFalse (fun h => Val.noConfusion h)
  | .str _, .none => isFalse (fun h => Val.noConfusion h)
  | .str a, .str b =>
    match (inferInstance : Decidable (a = b)) with
    | isTrue h => isTrue (by rw [h])
    | isFalse h => isFalse (by intro hh; injection hh with h1; exact h h1)
  | .str _, .int _ => isFalse (fun h => Val.noConfusion h)
  | .str _, .float _ => isFalse (fun h => Val.noConfusion h)
  | .str _, .bool _ => isFalse (fun h => Val.noConfusion h)
  | .str _, .date _ => isFalse (fun h => Val.noConfusion h)
  | .str _, .vlist _ => isFalse (fun h => Val.noConfusion h)
  | .str _, .vdict _ => isFalse (fun h => Val.noConfusion h)
  | .str _, .pat _ => isFalse (fun h => Val.noConfusion h)
  | .int _, .none => isFalse (fun h => Val.noConfusion h)
  | .int _, .str _ => isFalse (fun h => Val.noConfusion h)
  | .int a, .int b =>
    match (inferInstance : Decidable (a = b)) with
    | isTrue h => isTrue (by rw [h])
    | isFalse h => isFalse (by intro hh; injection hh with h1; exact h h1)
  | .int _, .float _ => isFalse (fun h => Val.noConfusion h)
  | .int _, .bool _ => isFalse (fun h => Val.noConfusion h)
  | .int _, .date _ => isFalse (fun h => Val.noConfusion h)
  | .int _, .vlist _ => isFalse (fun h => Val.noConfusion h)
  | .int _, .vdict _ => isFalse (fun h => Val.noConfusion h)
  | .int _, .pat _ => isFalse (fun h => Val.noConfusion h)
  | .float _, .none => isFalse (fun h => Val.noConfusion h)
  | .float _, .str _ => isFalse (fun h => Val.noConfusion h)
  | .float _, .int _ => isFalse (fun h => Val.noConfusion h)
  | .float a, .float b =>
    match (inferInstance : Decidable (a = b)) with
    | isTrue h => isTrue (by rw [h])
    | isFalse h => isFalse (by intro hh; injection hh with h1; exact h h1)
  | .float _, .bool _ => isFalse (fun h => Val.noConfusion h)
  | .float _, .date _ => isFalse (fun h => Val.noConfusion h)
  | .float _, .vlist _ => isFalse (fun h => Val.noConfusion h)
  | .float _, .vdict _ => isFalse (fun h => Val.noConfusion h)
  | .float _, .pat _ => isFalse (fun h => Val.noConfusion h)
  | .bool _, .none => isFalse (fun h => Val.noConfusion h)
  | .bool _, .str _ => isFalse (fun h => Val.noConfusion h)
  | .bool _, .int _ => isFalse (fun h => Val.noConfusion h)
  | .bool _, .float _ => isFalse (fun h => Val.noConfusion h)
  | .bool a, .bool b =>
    match (inferInstance : Decidable (a = b)) with
    | isTrue h => isTrue (by rw [h])
    | isFalse h => isFalse (by intro hh; injection hh with h1; exact h h1)
  | .bool _, .date _ => isFalse (fun h => Val.noConfusion h)
  | .bool _, .vlist _ => isFalse (fun h => Val.noConfusion h)
  | .bool _, .vdict _ => isFalse (fun h => Val.noConfusion h)
  | .bool _, .pat _ => isFalse (fun h => Val.noConfusion h)
  | .date _, .none => isFalse (fun h => Val.noConfusion h)
  | .date _, .str _ => isFalse (fun h => Val.noConfusion h)
  | .date _, .int _ => isFalse (fun h => Val.noConfusion h)
  | .date _, .float _ => isFalse (fun h => Val.noConfusion h)
  | .date _, .bool _ => isFalse (fun h => Val.noConfusion h)
  | .date a, .date b =>
    match (inferInstance : Decidable (a = b)) with
    | isTrue h => isTrue (by rw [h])
    | isFalse h => isFalse (by intro hh; injection hh with h1; exact h h1)
  | .date _, .vlist _ => isFalse (fun h => Val.noConfusion h)
  | .date _, .vdict _ => isFalse (fun h => Val.noConfusion h)
  | .date _, .pat _ => isFalse (fun h => Val.noConfusion h)
  | .vlist _, .none => isFalse (fun h => Val.noConfusion h)
  | .vlist _, .str _ => isFalse (fun h => Val.noConfusion h)
  | .vlist _, .int _ => isFalse (fun h => Val.noConfusion h)
  | .vlist _, .float _ => isFalse (fun h => Val.noConfusion h)
  | .vlist _, .bool _ => isFalse (fun h => Val.noConfusion h)
  | .vlist _, .date _ => isFalse (fun h => Val.noConfusion h)
  | .vlist a, .vlist b =>
    match valListDecEq a b with
    | isTrue h => isTrue (by rw [h])
    | isFalse h => isFalse (by intro hh; injection hh with h1; exact h h1)
  | .vlist _, .vdict _ => isFalse (fun h => Val.noConfusion h)
  | .vlist _, .pat _ => isFalse (fun h => Val.noConfusion h)
  | .vdict _, .none => isFalse (fun h => Val.noConfusion h)
  | .vdict _, .str _ => isFalse (fun h => Val.noConfusion h)
  | .vdict _, .int _ => isFalse (fun h => Val.noConfusion h)
  | .vdict _, .float _ => isFalse (fun h => Val.noConfusion h)
  | .vdict _, .bool _ => isFalse (fun h => Val.noConfusion h)
  | .vdict _, .date _ => isFalse (fun h => Val.noConfusion h)
  | .vdict _, .vlist _ => isFalse (fun h => Val.noConfusion h)
  | .vdict a, .vdict b =>
    match valDictDecEq a b with
    | isTrue h => isTrue (by rw [h])
    | isFalse h => isFalse (by intro hh; injection hh with h1; exact h h1)
  | .vdict _, .pat _ => isFalse (fun h => Val.noConfusion h)
  | .pat _, .none => isFalse (fun h => Val.noConfusion h)
  | .pat _, .str _ => isFalse (fun h => Val.noConfusion h)
  | .pat _, .int _ => isFalse (fun h => Val.noConfusion h)
  | .pat _, .float _ => isFalse (fun h => Val.noConfusion h)
  | .pat _, .bool _ => isFalse (fun h => Val.noConfusion h)
  | .pat _, .date _ => isFalse (fun h => Val.noConfusion h)
  | .pat _, .vlist _ => isFalse (fun h => Val.noConfusion h)
  | .pat _, .vdict _ => isFalse (fun h => Val.noConfusion h)
  | .pat a, .pat b =>
    match (inferInstance : Decidable (a = b)) with
    | isTrue h => isTrue (by rw [h])
    | isFalse h => isFalse (by intro hh; injection hh with h1; exact h h1)

/-- Decidable equality for lists of values. -/
def valListDecEq : (xs ys : List Val) → Decidable (xs = ys)
  | [], [] => isTrue rfl
  | [], _ :: _ => isFalse (fun h => List.noConfusion h)
  | _ :: _, [] => isFalse (fun h => List.noConfusion h)
  | x :: xs, y :: ys =>
    match valDecEq x y, valListDecEq xs ys with
    | isTrue h1, isTrue h2 => isTrue (by rw [h1, h2])
    | isFalse h1, _ => isFalse (by intro hh; injection hh with a b; exact h1 a)
    | _, isFalse h2 => isFalse (by intro hh; injection hh with a b; exact h2 b)

/-- Decidable equality for string-keyed entry lists. -/
def valDictDecEq : (xs ys : List (String × Val)) → Decidable (xs = ys)
  | [], [] => isTrue rfl
  | [], _ :: _ => isFalse (fun h => List.noConfusion h)
  | _ :: _, [] => isFalse (fun h => List.noConfusion h)
  | (k1, v1) :: xs, (k2, v2) :: ys =>
    match String.decEq k1 k2, valDecEq v1 v2, valDictDecEq xs ys with
    | isTrue h0, isTrue h1, isTrue h2 => isTrue (by rw [h0, h1, h2])
    | isFalse h0, _, _ =>
      isFalse (by intro hh; injection hh with a b; injection a with a1 a2; exact h0 a1)
    | _, isFalse h1, _ =>
      isFalse (by intro hh; injection hh with a b; injection a with a1 a2; exact h1 a2)
    | _, _, isFalse h2 => isFalse (by intro hh; injection hh with a b; exact h2 b)
end

instance : DecidableEq Val := valDecEq

/-- A row: Python `dict` mapping column name to value, in insertion order. -/
abbrev Row := List (String × Val)

/-- First-match association lookup: Python `d[k]` / `d.get(k)` on a dict
represented as an insertion-ordered association list. -/
def alookup {α : Type} : List (String × α) → String → Option α
  | [], _ => Option.none
  | p :: t, k => if p.1 = k then some p.2 else alookup t k

/-- Python's `str.strip` whitespace test (ASCII whitespace). -/
def isSpaceChar (c : Char) : Bool :=
  c = ' ' ∨ c = '\t' ∨ c = '\n' ∨ c = '\r' ∨ c = '\x0b' ∨ c = '\x0c'

/-- ASCII lowering of one character (the program's tokens are ASCII). -/
def pyLowerChar (c : Char) : Char :=
  if 'A' ≤ c ∧ c ≤ 'Z' then Char.ofNat (c.toNat + 32) else c

/-- `x.strip().lower()`. -/
def pyLowerStrip (s : String) : String :=
  String.mk (((s.toList.dropWhile isSpaceChar).reverse.dropWhile isSpaceChar).reverse.map
    pyLowerChar)

/-- `x.strip()` alone (used by `float()` parsing). -/
def pyStrip (s : String) : String :=
  String.mk ((s.toList.dropWhile isSpaceChar).reverse.dropWhile isSpaceChar).reverse

/-- Pad a string with leading zeros to length `k`. -/
def padLeftZeros (s : String) (k : Nat) : String :=
  if s.length ≥ k then s else String.mk (List.replicate (k - s.length) '0') ++ s

/-- Two-digit zero padding, as in Python datetime rendering. -/
def pad2 (n : Nat) : String := if n < 10 then "0" ++ toString n else toString n

/-- `str(datetime)` rendering: `YYYY-MM-DD HH:MM:SS`. -/
def dtStr (d : DateTime) : String :=
  padLeftZeros (toString d.year) 4 ++ "-" ++ pad2 d.month ++ "-" ++ pad2 d.day ++ " " ++
    pad2 d.hour ++ ":" ++ pad2 d.minute ++ ":" ++ pad2 d.second

/-- Decimal rendering of an exact rational, matching Python `str` on the
floats the program produces: integers print as `n.0`, finite decimals print
exactly; a non-decimal rational falls back to a fraction form (unreachable
from decimal input). -/
def ratDecimalString (q : PyRat) : String :=
  if q.den = 1 then toString q.num ++ ".0"
  else
    match (List.range 40).find? (fun k => 10 ^ k % q.den = 0) with
    | some k =>
        let scaled : Nat := q.num.natAbs * 10 ^ k / q.den
        let intPart := scaled / 10 ^ k
        let fracPart := scaled % 10 ^ k
        (if q.num < 0 then "-" else "") ++ toString intPart ++ "." ++
          padLeftZeros (toString fracPart) k
    | Option.none => toString q.num ++ "/" ++ toString q.den

mutual
/-- Python `repr(x)`: scalars render as their literals, lists and dicts
recursively with repr elements (as Python does), string quoting without
escape processing; a compiled pattern renders as an `re.compile` form (the
original pattern text is not recoverable from the syntax tree, and no claim
inspects it). -/
def pyRepr : Val → String
  | .none => "None"
  | .str s => "'" ++ s ++ "'"
  | .int n => toString n
  | .float q => ratDecimalString q
  | .bool b => if b then "True" else "False"
  | .date d => "datetime.datetime(" ++ toString d.year ++ ", " ++ toString d.month ++ ", " ++
      toString d.day ++ ", " ++ toString d.hour ++ ", " ++ toString d.minute ++ ", " ++
      toString d.second ++ ")"
  | .vlist xs => "[" ++ pyReprList xs ++ "]"
  | .vdict kvs => "\x7b" ++ pyReprDict kvs ++ "\x7d"
  | .pat _ => "re.compile(<pattern>)"

/-- Comma-joined reprs of list elements. -/
def pyReprList : List Val → String
  | [] => ""
  | [x] => pyRepr x
  | x :: y :: t => pyRepr x ++ ", " ++ pyReprList (y :: t)

/-- Comma-joined `'key': repr` entries of a dict. -/
def pyReprDict : List (String × Val) → String
  | [] => ""
  | [p] => "'" ++ p.1 ++ "': " ++ pyRepr p.2
  | p :: q :: t => "'" ++ p.1 ++ "': " ++ pyRepr p.2 ++ ", " ++ pyReprDict (q :: t)
end

/-- Python `str(x)` on the embedded value universe (`str` of a container or
pattern coincides with its repr, as in Python). -/
def pyStr : Val → String
  | .none => "None"
  | .str s => s
  | .int n => toString n
  | .float q => ratDecimalString q
  | .bool b => if b then "True" else "False"
  | .date d => dtStr d
  | .vlist xs => pyRepr (.vlist xs)
  | .vdict kvs => pyRepr (.vdict kvs)
  | .pat r => pyRepr (.pat r)

/-- The shared null-token list: `("", "na", "n/a", "null")`, identical in
`cast_row_types.to_none_if_blank` and `validate_dataset.is_null`. -/
def null_tokens : List String := ["", "na", "n/a", "null"]

/-- `to_none_if_blank` from `cast_row_types`: `None` stays `None`, a string
whose trimmed/lowered form is a null token becomes `None`, anything else is
returned unchanged. -/
def to_none_if_blank : Val → Val
  | .none => .none
  | .str s => if pyLowerStrip s ∈ null_tokens then .none else .str s
  | v => v

/-- `is_null` from `validate_dataset`: same convention as
`to_none_if_blank`, as a test. -/
def is_null : Val → Bool
  | .none => true
  | .str s => pyLowerStrip s ∈ null_tokens
  | _ => false

/-- Digit run to value: fold of decimal digits. -/
def digitsVal (cs : List Char) : Nat :=
  cs.foldl (fun a c => a * 10 + (c.toNat - 48)) 0

/-- Python `float(s)` on a string: optional surrounding whitespace, optional
sign, digits with an optional decimal point, optional exponent.  Yields the
exact rational value.  (`inf`, `nan` and `_` separators are outside the
modelled universe.) -/
def pyParseFloat (x : String) : Option PyRat :=
  let cs := (pyStrip x).toList
  let signAndRest : Int × List Char :=
    match cs with
    | '+' :: t => (1, t)
    | '-' :: t => (-1, t)
    | t => (1, t)
  let sign := signAndRest.1
  let cs1 := signAndRest.2
  let ipRest := cs1.span Char.isDigit
  let ip := ipRest.1
  let fpRest : List Char × List Char :=
    match ipRest.2 with
    | '.' :: t => t.span Char.isDigit
    | t => ([], t)
  let fp := fpRest.1
  let afterNum :=
    match ipRest.2 with
    | '.' :: _ => fpRest.2
    | t => t
  if ip.isEmpty ∧ fp.isEmpty then Option.none
  else
    let expRest : Option Int :=
      match afterNum with
      | [] => some 0
      | c :: t =>
        if c = 'e' ∨ c = 'E' then
          let esRest : Int × List Char :=
            match t with
            | '+' :: u => (1, u)
            | '-' :: u => (-1, u)
            | u => (1, u)
          let ed := esRest.2.span Char.isDigit
          if ed.1.isEmpty ∨ ¬ ed.2.isEmpty then Option.none
          else some (esRest.1 * (digitsVal ed.1 : Int))
        else Option.none
    match expRest with
    | Option.none => Option.none
    | some ex =>
      let mantNum : Int := sign * ((digitsVal ip * 10 ^ fp.length + digitsVal fp : Nat) : Int)
      let mantDen : Nat := 10 ^ fp.length
      if 0 ≤ ex then some (PyRat.norm (mantNum * (10 ^ ex.toNat : Nat)) mantDen)
      else some (PyRat.norm mantNum (mantDen * 10 ^ (-ex).toNat))

/-- Python `float(x)` on the value universe: identity on floats, exact on
ints, `True`/`False` become `1`/`0`, strings are parsed; everything else
(`datetime`) is a `TypeError`, i.e. `Option.none`. -/
def pyFloat : Val → Option PyRat
  | .int n => some (PyRat.ofInt n)
  | .float q => some q
  | .bool b => some (PyRat.ofInt (if b then 1 else 0))
  | .str s => pyParseFloat s
  | _ => Option.none

/-- `int(float(...))`: truncation of the exact rational toward zero
(numerator T-division by denominator). -/
def pyTrunc (q : PyRat) : Int := Int.tdiv q.num (q.den : Int)

/-- `to_bool` from `cast_row_types`: booleans pass through, `None` passes
through, otherwise `str(x).strip().lower()` is matched against the accepted
token lists; anything else is a `ValueError` (`Option.none`). -/
def to_bool : Val → Option Val
  | .bool b => some (.bool b)
  | .none => some .none
  | v =>
    if pyLowerStrip (pyStr v) ∈ ["true", "yes", "y", "1"] then some (.bool true)
    else if pyLowerStrip (pyStr v) ∈ ["false", "no", "n", "0"] then some (.bool false)
    else Option.none

/-- Read up to `k` leading decimal digits: returns value, count and rest. -/
def readDigitsAux : Nat → Nat → Nat → List Char → Nat × Nat × List Char
  | 0, acc, count, cs => (acc, count, cs)
  | _ + 1, acc, count, [] => (acc, count, [])
  | k + 1, acc, count, c :: rest =>
    if c.isDigit then readDigitsAux k (acc * 10 + (c.toNat - 48)) (count + 1) rest
    else (acc, count, c :: rest)

/-- Days in a month, with the Gregorian leap-year rule (the validity check
`datetime.strptime` performs when constructing the result). -/
def daysInMonth (y m : Nat) : Nat :=
  if m = 2 then (if y % 4 = 0 ∧ (y % 100 ≠ 0 ∨ y % 400 = 0) then 29 else 28)
  else if m ∈ [4, 6, 9, 11] then 30 else 31

/-- `datetime.strptime` matching loop over the format string, for the
directives `%Y %m %d %H %M %S %%` and literal characters; any other
directive, a mismatch, or unconverted trailing input is a `ValueError`
(`Option.none`). -/
def strptimeAux : List Char → List Char → DateTime → Option DateTime
  | [], [], d => some d
  | [], _ :: _, _ => Option.none
  | ['%'], _, _ => Option.none
  | '%' :: f :: fs, cs, d =>
    if f = 'Y' then
      let r := readDigitsAux 4 0 0 cs
      if r.2.1 = 4 then strptimeAux fs r.2.2 { d with year := r.1 } else Option.none
    else if f = 'm' then
      let r := readDigitsAux 2 0 0 cs
      if 1 ≤ r.2.1 ∧ 1 ≤ r.1 ∧ r.1 ≤ 12 then strptimeAux fs r.2.2 { d with month := r.1 }
      else Option.none
    else if f = 'd' then
      let r := readDigitsAux 2 0 0 cs
      if 1 ≤ r.2.1 ∧ 1 ≤ r.1 ∧ r.1 ≤ 31 then strptimeAux fs r.2.2 { d with day := r.1 }
      else Option.none
    else if f = 'H' then
      let r := readDigitsAux 2 0 0 cs
      if 1 ≤ r.2.1 ∧ r.1 ≤ 23 then strptimeAux fs r.2.2 { d with hour := r.1 }
      else Option.none
    else if f = 'M' then
      let r := readDigitsAux 2 0 0 cs
      if 1 ≤ r.2.1 ∧ r.1 ≤ 59 then strptimeAux fs r.2.2 { d with minute := r.1 }
      else Option.none
    else if f = 'S' then
      let r := readDigitsAux 2 0 0 cs
      if 1 ≤ r.2.1 ∧ r.1 ≤ 61 then strptimeAux fs r.2.2 { d with second := r.1 }
      else Option.none
    else if f = '%' then
      match cs with
      | c :: rest => if c = '%' then strptimeAux fs rest d else Option.none
      | [] => Option.none
    else Option.none
  | f :: fs, c :: rest, d => if f = c then strptimeAux fs rest d else Option.none
  | _ :: _, [], _ => Option.none

/-- `datetime.strptime(s, fmt)`: run the matching loop from the default
`1900-01-01 00:00:00` and validate the resulting calendar date. -/
def strptime (s fmt : String) : Option DateTime :=
  match strptimeAux fmt.toList s.toList ⟨1900, 1, 1, 0, 0, 0⟩ with
  | some d =>
    if 1 ≤ d.year ∧ 1 ≤ d.day ∧ d.day ≤ daysInMonth d.year d.month then some d
    else Option.none
  | _ => Option.none

/-- `"datetime:"` prefix test on a type label. -/
def isDatetimeLabel (tlabel : String) : Bool :=
  "datetime:".toList.isPrefixOf tlabel.toList

/-- The format part after `"datetime:"` (`tlabel.split(":", 1)[1]`). -/
def datetimeFmt (tlabel : String) : String := String.mk (tlabel.toList.drop 9)

/-- The `try` block of `cast_row_types` on a non-null value: conversion of
`raw` under the type label, `Option.none` meaning the attempt raised
(including the `Unsupported type label` branch for unrecognized labels). -/
def convertVal (tlabel : String) (raw : Val) : Option Val :=
  if tlabel = "int" then (pyFloat raw).map (fun q => .int (pyTrunc q))
  else if tlabel = "float" then (pyFloat raw).map .float
  else if tlabel = "bool" then to_bool raw
  else if isDatetimeLabel tlabel then
    (strptime (pyStr raw) (datetimeFmt tlabel)).map .date
  else Option.none

/-- The per-cell result of `cast_row_types` for a mapped column present in
the row: null convention first, the `str` label stringifies non-null values,
a null becomes `None` under every other label, and a failed conversion
leaves the (post-null-check, hence original) value unchanged. -/
def cast_value (tlabel : String) (cur : Val) : Val :=
  let raw := to_none_if_blank cur
  if tlabel = "str" then
    match raw with
    | .none => .none
    | r => .str (pyStr r)
  else
    match raw with
    | .none => .none
    | r =>
      match convertVal tlabel r with
      | some v => v
      | Option.none => r

/-- `out[col] = v` on a dict: replace the value at key `col`, keeping
position; on a key-unique row this touches exactly the one entry. -/
def setVal (row : Row) (col : String) (v : Val) : Row :=
  row.map (fun p => if p.1 = col then (p.1, v) else p)

/-- One iteration of the `for col, tlabel in type_map.items()` loop body:
columns absent from the row are skipped, otherwise the cell is rewritten
with `cast_value`. -/
def castCol (out : Row) (col tlabel : String) : Row :=
  match alookup out col with
  | Option.none => out
  | some cur => setVal out col (cast_value tlabel cur)

/-- `cast_row_types(row, type_map)`: start from a copy of the row and fold
the type map over it in insertion order. -/
def cast_row_types (row : Row) (type_map : List (String × String)) : Row :=
  type_map.foldl (fun out p => castCol out p.1 p.2) row

/-- A numeric rule bound (`min`, `max`, `len_min`, `len_max`): in Python an
`int`, `float` or `bool` constraint value (any of which compares numerically
against a numeric cell). -/
inductive NumB where
  | int (n : Int)
  | float (q : PyRat)
  | bool (b : Bool)
deriving DecidableEq, Repr

/-- The constraint value as a `Val` (for message rendering via `str`). -/
def NumB.toVal : NumB → Val
  | .int n => .int n
  | .float q => .float q
  | .bool b => .bool b

/-- The constraint value as an exact rational. -/
def NumB.toRat : NumB → PyRat
  | .int n => PyRat.ofInt n
  | .float q => q
  | .bool b => PyRat.ofInt (if b then 1 else 0)

/-- A per-column rule specification (the recognized keys of a rule dict;
`Option.none` marks an absent key). -/
structure Spec where
  required : Bool
  not_null : Bool
  type : Option String
  min : Option NumB
  max : Option NumB
  len_min : Option NumB
  len_max : Option NumB
  allowed : Option (List Val)
  regex : Option Regex
  unique : Bool
deriving DecidableEq, Repr

/-- A rule spec with every key absent (building block for examples). -/
def Spec.empty : Spec :=
  ⟨false, false, Option.none, Option.none, Option.none, Option.none, Option.none,
   Option.none, Option.none, false⟩

/-- One reported validation failure, with the exact dict fields the source
builds. -/
structure Issue where
  row_idx : Nat
  column : String
  rule : String
  value : Val
  message : String
deriving DecidableEq, Repr

/-- Python `==` on cell values: `None` equals only `None`, strings compare
as text, datetimes by value, numbers (`int`, `float`, `bool`) compare
numerically across types (`True == 1`), and containers compare structurally
(element-wise `==` with cross-type numeric coercion inside containers is
outside the modelled scope); everything else is unequal. -/
def pyEq (a b : Val) : Bool :=
  match a, b with
  | .none, .none => true
  | .str x, .str y => x = y
  | .date x, .date y => x = y
  | .int x, .int y => x = y
  | .int x, .float y => PyRat.numEq (PyRat.ofInt x) y
  | .int x, .bool y => x = (if y then 1 else 0)
  | .float x, .int y => PyRat.numEq x (PyRat.ofInt y)
  | .float x, .float y => PyRat.numEq x y
  | .float x, .bool y => PyRat.numEq x (PyRat.ofInt (if y then 1 else 0))
  | .bool x, .int y => (if x then 1 else 0 : Int) = y
  | .bool x, .float y => PyRat.numEq (PyRat.ofInt (if x then 1 else 0)) y
  | .bool x, .bool y => x = y
  | .vlist x, .vlist y => x = y
  | .vdict x, .vdict y => x = y
  | .pat x, .pat y => x = y
  | _, _ => false

/-- `isinstance(v, (int, float))` composed with numeric reading: a Python
`bool` is an `int` subclass, so it counts as numeric with `True = 1`,
`False = 0`. -/
def asNum : Val → Option PyRat
  | .int n => some (PyRat.ofInt n)
  | .float q => some q
  | .bool b => some (PyRat.ofInt (if b then 1 else 0))
  | _ => Option.none

/-- The runtime type test of the `type` rule: `int` accepts `int` and
`bool` (a `bool` is an `int` in Python), `float` accepts `float`/`int`/
`bool`, `bool` accepts exactly `bool`, `str` accepts text or `None`,
`datetime:*` accepts a parsed datetime, and an unrecognized label accepts
everything. -/
def type_ok (tlabel : String) (v : Val) : Bool :=
  if tlabel = "int" then
    match v with
    | .int _ => true
    | .bool _ => true
    | _ => false
  else if tlabel = "float" then
    match v with
    | .float _ => true
    | .int _ => true
    | .bool _ => true
    | _ => false
  else if tlabel = "bool" then
    match v with
    | .bool _ => true
    | _ => false
  else if tlabel = "str" then
    match v with
    | .none => true
    | .str _ => true
    | _ => false
  else if isDatetimeLabel tlabel then
    match v with
    | .date _ => true
    | _ => false
  else true

/-- The `required` check: the column must exist in the raw row and its raw
value must be non-null; the reported value is the raw value, or `None` when
the column is absent. -/
def required_issues (idx : Nat) (raw_row : Row) (col : String) (spec : Spec) : List Issue :=
  if spec.required &&
      (!(alookup raw_row col).isSome || is_null ((alookup raw_row col).getD Val.none))
  then [⟨idx, col, "required",
         if (alookup raw_row col).isSome then (alookup raw_row col).getD Val.none
         else Val.none,
         "Required column missing or null."⟩]
  else []

/-- The `not_null` check: fires only when the column is present in the raw
row and its raw value is null. -/
def not_null_issues (idx : Nat) (raw_row : Row) (col : String) (spec : Spec) : List Issue :=
  if (alookup raw_row col).isSome && spec.not_null &&
      is_null ((alookup raw_row col).getD Val.none)
  then [⟨idx, col, "not_null", (alookup raw_row col).getD Val.none,
         "Value cannot be null."⟩]
  else []

/-- The `type` check on the interpreted value (reported with the raw
value). -/
def type_issues (idx : Nat) (col : String) (topt : Option String) (rawv v : Val) :
    List Issue :=
  match topt with
  | some tlabel =>
    if type_ok tlabel v then []
    else [⟨idx, col, "type", rawv, "Expected " ++ tlabel ++ "."⟩]
  | _ => []

/-- The `min`/`max` checks: only on numeric interpreted values, inclusive
bounds, reporting the interpreted value. -/
def range_issues (idx : Nat) (col : String) (mn mx : Option NumB) (v : Val) : List Issue :=
  match asNum v with
  | Option.none => []
  | some q =>
    (match mn with
     | some m =>
       if PyRat.blt q m.toRat then
         [⟨idx, col, "min", v, "Value " ++ pyStr v ++ " < min " ++ pyStr m.toVal ++ "."⟩]
       else []
     | _ => []) ++
    (match mx with
     | some m =>
       if PyRat.blt m.toRat q then
         [⟨idx, col, "max", v, "Value " ++ pyStr v ++ " > max " ++ pyStr m.toVal ++ "."⟩]
       else []
     | _ => [])

/-- The `len_min`/`len_max` checks: only on text interpreted values,
inclusive bounds on character length. -/
def len_issues (idx : Nat) (col : String) (lmn lmx : Option NumB) (v : Val) : List Issue :=
  match v with
  | .str s =>
    (match lmn with
     | some m =>
       if PyRat.blt (PyRat.ofInt s.length) m.toRat then
         [⟨idx, col, "len_min", v, "Length " ++ toString s.length ++ " < len_min " ++
            pyStr m.toVal ++ "."⟩]
       else []
     | _ => []) ++
    (match lmx with
     | some m =>
       if PyRat.blt m.toRat (PyRat.ofInt s.length) then
         [⟨idx, col, "len_max", v, "Length " ++ toString s.length ++ " > len_max " ++
            pyStr m.toVal ++ "."⟩]
       else []
     | _ => [])
  | _ => []

/-- The number of distinct members of `set(xs)` under Python equality. -/
def pySetLen (xs : List Val) : Nat :=
  (xs.foldl (fun acc v => if acc.any (fun w => pyEq w v) then acc else acc ++ [v]) []).length

/-- The `allowed` check: only on non-null interpreted values, membership in
the allowed set under Python equality. -/
def allowed_issues (idx : Nat) (col : String) (alw : Option (List Val)) (v : Val) :
    List Issue :=
  match alw with
  | some xs =>
    if is_null v then []
    else if xs.any (fun w => pyEq v w) then []
    else [⟨idx, col, "allowed", v, "Value " ++ pyRepr v ++ " not in allowed set (" ++
           toString (pySetLen xs) ++ " items)."⟩]
  | _ => []

/-- The `regex` check: only on non-null text interpreted values, requiring a
full-string match. -/
def regex_issues (idx : Nat) (col : String) (ropt : Option Regex) (v : Val) : List Issue :=
  match ropt with
  | some pattern =>
    match v with
    | .str s =>
      if !is_null (.str s) && !re_fullmatch pattern s then
        [⟨idx, col, "regex", .str s, "String does not match required pattern."⟩]
      else []
    | _ => []
  | _ => []

/-- The whole per-cell body of the row-wise validation loop for one column,
in source order: `required`, `not_null`, then — only when the column is
present in the interpreted row — `type`, `min`/`max`, `len_min`/`len_max`,
`allowed`, `regex`.  (The uniqueness bookkeeping is stateful and modelled
separately by `collect_unique`.) -/
def cell_issues (idx : Nat) (raw_row row : Row) (col : String) (spec : Spec) : List Issue :=
  required_issues idx raw_row col spec ++ not_null_issues idx raw_row col spec ++
  (match alookup row col with
   | Option.none => []
   | some v =>
     type_issues idx col spec.type ((alookup raw_row col).getD Val.none) v ++
     range_issues idx col spec.min spec.max v ++
     len_issues idx col spec.len_min spec.len_max v ++
     allowed_issues idx col spec.allowed v ++
     regex_issues idx col spec.regex v)

/-- Uniqueness bookkeeping for one column: `seen` maps each non-null
interpreted value (Python dict keyed by `==`) to the first row index holding
it; `dups` lists the later row indices at which a seen value recurred. -/
structure UTrack where
  seen : List (Val × Nat)
  dups : List Nat
deriving DecidableEq, Repr

/-- The `unique` collection steps of the row loop for one column, folded
over the (index, raw row, interpreted row) triples. -/
def collect_unique (col : String) (pairs : List (Nat × Row × Row)) : UTrack :=
  pairs.foldl
    (fun tr p =>
      match alookup p.2.2 col with
      | Option.none => tr
      | some v =>
        if is_null v then tr
        else
          match tr.seen.find? (fun q => pyEq q.1 v) with
          | some _ => { tr with dups := tr.dups ++ [p.1] }
          | _ => { tr with seen := tr.seen ++ [(v, p.1)] })
    ⟨[], []⟩

/-- `rows[j].get(col)` on the raw dataset. -/
def rows_get (rows : List Row) (j : Nat) (col : String) : Val :=
  (alookup (rows.getD j []) col).getD Val.none

/-- Insert into a sorted duplicate-free list of indices (ascending). -/
def insertSorted (n : Nat) : List Nat → List Nat
  | [] => [n]
  | m :: t =>
    if n < m then n :: m :: t
    else if n = m then m :: t
    else m :: insertSorted n t

/-- `sorted(set(...))`: ascending, duplicate-free. -/
def sortedDedup (l : List Nat) : List Nat := l.foldr insertSorted []

/-- The post-scan uniqueness emission for one column.  Note the source's
reconstruction of first occurrences: it compares the RAW value
`rows[j].get(col)` of each duplicate row against the INTERPRETED tracked
value, so a first occurrence is found only when those compare equal under
Python `==`.  (The source also computes an unused `first_idxs` set, omitted
here.) -/
def unique_issues_for (rows : List Row) (col : String) (tr : UTrack) : List Issue :=
  if tr.dups.isEmpty then []
  else
    let dup_firsts :=
      (tr.seen.filter (fun q => tr.dups.any (fun j => pyEq (rows_get rows j col) q.1))).map
        (fun q => q.2)
    (sortedDedup (dup_firsts ++ tr.dups)).map
      (fun i => ⟨i, col, "unique", rows_get rows i col, "Duplicate value violates uniqueness."⟩)

/-- `validate_dataset(rows, rules)` on well-shaped input: build the type map
from the `type` rule keys, cast every row with it (a no-op copy when the
type map is empty, exactly as in the source), run the row-wise checks in
row-then-rule order, and append the per-column uniqueness issues in rule
order. -/
def validate_dataset (rows : List Row) (rules : List (String × Spec)) : List Issue :=
  let type_map := rules.filterMap (fun p => (p.2.type).map (fun t => (p.1, t)))
  let casted_rows :=
    if type_map.isEmpty then rows else rows.map (fun r => cast_row_types r type_map)
  let pairs := (rows.zip casted_rows).enum.map (fun p => (p.1, p.2.1, p.2.2))
  let row_issues :=
    pairs.flatMap (fun p => rules.flatMap (fun rs => cell_issues p.1 p.2.1 p.2.2 rs.1 rs.2))
  let unique_cols := (rules.filter (fun rs => rs.2.unique)).map (fun rs => rs.1)
  let u_issues :=
    unique_cols.flatMap (fun col => unique_issues_for rows col (collect_unique col pairs))
  row_issues ++ u_issues

/-- Convert the `rows` list element-wise: each element must be a mapping
(the source's `dict(r)` / `cast_row_types(r, ...)` raise `TypeError`
otherwise); its cells pass through unrestricted — container cells are
accepted exactly as the source accepts them. -/
def rowsOfDyn : List Val → Option (List Row)
  | [] => some []
  | .vdict kvs :: t => (rowsOfDyn t).map (fun rs => kvs :: rs)
  | _ => Option.none

/-- Python truthiness (`bool(x)`), used by the `required`/`not_null`/
`unique` rule keys. -/
def valTruthy : Val → Bool
  | .none => false
  | .str s => s ≠ ""
  | .int n => n ≠ 0
  | .float q => q.num ≠ 0
  | .bool b => b
  | .date _ => true
  | .vlist xs => !xs.isEmpty
  | .vdict kvs => !kvs.isEmpty
  | .pat _ => true

/-- `bool(spec.get(key, False))`: an absent key is falsy. -/
def pyTruthy : Option Val → Bool
  | some d => valTruthy d
  | _ => false

/-- `spec.get("type")` filtered by `isinstance(tlabel, str)`: a non-string
`type` value is silently ignored by the source. -/
def readType : Option Val → Option String
  | some (.str t) => some t
  | _ => Option.none

/-- Read a numeric bound: absent is fine, a numeric value converts, anything
else is ill-typed (the comparison would raise `TypeError` once a numeric
cell triggers it). -/
def readNumB : Option Val → Option (Option NumB)
  | Option.none => some Option.none
  | some (.int n) => some (some (NumB.int n))
  | some (.float q) => some (some (NumB.float q))
  | some (.bool b) => some (some (NumB.bool b))
  | some _ => Option.none

/-- Read the `allowed` set: absent is fine, a list converts, anything else
is ill-typed (`set(...)` would raise). -/
def readAllowed : Option Val → Option (Option (List Val))
  | Option.none => some Option.none
  | some (.vlist xs) => some (some xs)
  | some _ => Option.none

/-- Read the `regex` pattern: absent is fine, a compiled pattern converts,
anything else is ill-typed (`re.fullmatch` would raise). -/
def readRegex : Option Val → Option (Option Regex)
  | Option.none => some Option.none
  | some (.pat r) => some (some r)
  | some _ => Option.none

/-- Convert one rule-spec dict into a typed `Spec`; fails exactly when a
recognized constraint key holds an ill-typed value. -/
def specOfDyn (kvs : List (String × Val)) : Option Spec :=
  match readNumB (alookup kvs "min"), readNumB (alookup kvs "max"),
        readNumB (alookup kvs "len_min"), readNumB (alookup kvs "len_max"),
        readAllowed (alookup kvs "allowed"), readRegex (alookup kvs "regex") with
  | some mn, some mx, some lmn, some lmx, some alw, some rgx =>
    some ⟨pyTruthy (alookup kvs "required"), pyTruthy (alookup kvs "not_null"),
          readType (alookup kvs "type"), mn, mx, lmn, lmx, alw, rgx,
          pyTruthy (alookup kvs "unique")⟩
  | _, _, _, _, _, _ => Option.none

/-- Convert the rules dict: each value must itself be a dict (otherwise the
type-map preparation loop raises `AttributeError` on `spec.get` before any
row is touched) with well-typed constraint values. -/
def rulesOfDyn : List (String × Val) → Option (List (String × Spec))
  | [] => some []
  | (c, .vdict kvs) :: t =>
    match specOfDyn kvs, rulesOfDyn t with
    | some s, some rest => some ((c, s) :: rest)
    | _, _ => Option.none
  | _ => Option.none

/-- The dynamically-checked entry point of `validate_dataset`: the explicit
`isinstance` guard raises `TypeError` unless `rows` is a list and `rules` a
dict; then the type-map preparation loop requires every rule value to be a
mapping, and the casting pass requires every row to be a mapping — the
cells themselves are unrestricted.  On a well-shaped input the typed
`validate_dataset` runs and returns its issue list. -/
def validate_dataset_dyn : Val → Val → Except String (List Issue)
  | .vlist rs, .vdict rl =>
    match rulesOfDyn rl with
    | Option.none => .error "AttributeError: rule specification is not a mapping"
    | some rules =>
      match rowsOfDyn rs with
      | Option.none => .error "TypeError: row is not a mapping"
      | some rows => .ok (validate_dataset rows rules)
  | _, _ => .error "TypeError: validate_dataset rows must be list and rules must be dict"

/-- The rule `{"type":"int","min":0,"max":120,"required":True}` of the
spec's validator example. -/
def ageSpec : Spec :=
  { Spec.empty with
    type := some "int",
    min := some (NumB.int 0),
    max := some (NumB.int 120),
    required := true }

/-- The rule `{"unique":True}` of the spec's uniqueness example. -/
def uniqueOnlySpec : Spec :=
  { Spec.empty with unique := true }

/-- The rule `{"unique":True,"type":"int"}` exhibiting the uniqueness
defect. -/
def uniqueIntSpec : Spec :=
  { Spec.empty with unique := true, type := some "int" }

/-- The rule `{"regex":"[0-9]+"}`. -/
def digitsRegexSpec : Spec :=
  { Spec.empty with regex := some (Regex.plus digitClass) }

/-- The per-entry effect of `cast_row_types` on a key-unique row under a
key-unique type map: each entry is rewritten according to its own looked-up
label (the pointwise reformulation of the fold, proved equivalent in
`cast_row_types_eq_map`). -/
def apply_tm (tm : List (String × String)) (p : String × Val) : String × Val :=
  match alookup tm p.1 with
  | some t => (p.1, cast_value t p.2)
  | _ => p

/-- Example type map whose labels are all `int`/`float`/`bool`. -/
def tmW : List (String × String) := [("age", "int"), ("ok", "bool"), ("score", "float")]

/-- Example row for the idempotence witness. -/
def rowW : Row := [("age", Val.str "19.0"), ("ok", Val.str "yes"), ("score", Val.str "3.5")]

/-- The rule `{"type":"int","min":2}` of the bool-numeric example. -/
def intMin2Spec : Spec :=
  { Spec.empty with type := some "int", min := some (NumB.int 2) }

/-- The rule `{"min":2}` (no type, so a raw boolean cell reaches the range
check uncast). -/
def min2Spec : Spec :=
  { Spec.empty with min := some (NumB.int 2) }

/-- A rule with the unrecognized type label `"word"`. -/
def specW9 : Spec :=
  { Spec.empty with type := some "word" }

/-- Example rows for the unrecognized-label witness. -/
def rowsW9 : List Row := [[("a", Val.str "hello")], [("a", Val.int 5)]]

/-- Example rules for the unrecognized-label witness. -/
def rulesW9 : List (String × Spec) := [("a", specW9)]

theorem cast_smoke_int :
    cast_row_types [("age", Val.str "19.0")] [("age", "int")] = [("age", Val.int 19)] := by
  decide

theorem cast_smoke_all :
    cast_row_types
      [("age", Val.str "19"), ("score", Val.str "3.5"), ("consent", Val.str "Yes"),
       ("note", Val.str "N/A")]
      [("age", "int"), ("score", "float"), ("consent", "bool"), ("note", "str")] =
      [("age", Val.int 19), ("score", Val.float ⟨7, 2⟩), ("consent", Val.bool true),
       ("note", Val.none)] := by
  decide

theorem strptime_smoke :
    strptime "2024-10-01" "%Y-%m-%d" = some ⟨2024, 10, 1, 0, 0, 0⟩ := by
  decide

/-- Supporting evidence: on the spec's own uniqueness example (no `type`
rule, so raw and interpreted values coincide) the source does emit issues
for both occurrences of the duplicated value. -/
theorem validate_unique_nocast_example :
    validate_dataset
      [[("id", Val.str "A1")], [("id", Val.str "A2")], [("id", Val.str "A1")]]
      [("id", uniqueOnlySpec)] =
      [⟨0, "id", "unique", Val.str "A1", "Duplicate value violates uniqueness."⟩,
       ⟨2, "id", "unique", Val.str "A1", "Duplicate value violates uniqueness."⟩] := by
  decide

theorem alookup_eq_none_iff {α : Type} (l : List (String × α)) (k : String) :
    alookup l k = Option.none ↔ k ∉ l.map Prod.fst := by
  induction l with
  | nil => simp [alookup]
  | cons p t ih =>
    simp only [alookup, List.map_cons, List.mem_cons, not_or]
    by_cases h : p.1 = k
    · simp [h]
    · simp only [if_neg h, ih]
      constructor
      · intro hh
        exact ⟨fun he => h he.symm, hh⟩
      · intro hh
        exact hh.2

theorem setVal_keys (row : Row) (col : String) (v : Val) :
    (setVal row col v).map Prod.fst = row.map Prod.fst := by
  unfold setVal
  rw [List.map_map]
  congr 1
  funext p
  by_cases h : p.1 = col <;> simp [h]

theorem alookup_setVal (row : Row) (col : String) (v : Val) :
    alookup (setVal row col v) col = (alookup row col).map (fun _ => v) := by
  induction row with
  | nil => rfl
  | cons p t ih =>
    simp only [setVal, List.map_cons] at ih ⊢
    by_cases h : p.1 = col
    · simp [alookup, h]
    · simp [alookup, h, ih]

theorem alookup_setVal_ne (row : Row) (c col : String) (v : Val) (h : c ≠ col) :
    alookup (setVal row c v) col = alookup row col := by
  induction row with
  | nil => rfl
  | cons p t ih =>
    simp only [setVal, List.map_cons] at ih ⊢
    by_cases hp : p.1 = c
    · have hpc : ¬ p.1 = col := by
        rw [hp]
        exact h
      simp [alookup, hp, hpc, h, ih]
    · by_cases hc : p.1 = col
      · have hcc : ¬ col = c := fun hh => h hh.symm
        simp [alookup, hp, hc, hcc]
      · simp [alookup, hp, hc, ih]

theorem castCol_keys (out : Row) (c t : String) :
    (castCol out c t).map Prod.fst = out.map Prod.fst := by
  unfold castCol
  cases alookup out c <;> simp [setVal_keys]

theorem alookup_castCol_ne (out : Row) (c t col : String) (h : c ≠ col) :
    alookup (castCol out c t) col = alookup out col := by
  unfold castCol
  cases alookup out c <;> simp [alookup_setVal_ne _ _ _ _ h]

theorem alookup_castCol_self (out : Row) (c t : String) :
    alookup (castCol out c t) c = (alookup out c).map (cast_value t) := by
  unfold castCol
  cases hl : alookup out c with
  | none => simp [hl]
  | some cur => simp [alookup_setVal, hl]

theorem cast_row_types_cons (row : Row) (p : String × String) (tm : List (String × String)) :
    cast_row_types row (p :: tm) = cast_row_types (castCol row p.1 p.2) tm := rfl

theorem cast_row_types_keys (row : Row) (tm : List (String × String)) :
    (cast_row_types row tm).map Prod.fst = row.map Prod.fst := by
  induction tm generalizing row with
  | nil => rfl
  | cons p t ih => rw [cast_row_types_cons, ih, castCol_keys]

theorem alookup_cast_row_types_not_mem (row : Row) (tm : List (String × String)) (col : String)
    (h : col ∉ tm.map Prod.fst) :
    alookup (cast_row_types row tm) col = alookup row col := by
  induction tm generalizing row with
  | nil => rfl
  | cons p t ih =>
    simp only [List.map_cons, List.mem_cons] at h
    push_neg at h
    rw [cast_row_types_cons, ih _ h.2, alookup_castCol_ne _ _ _ _ (fun hh => h.1 hh.symm)]

theorem alookup_cast_row_types_mem (row : Row) (tm : List (String × String))
    (col tlabel : String) (cur : Val)
    (hnd : (tm.map Prod.fst).Nodup)
    (hl : alookup tm col = some tlabel)
    (hc : alookup row col = some cur) :
    alookup (cast_row_types row tm) col = some (cast_value tlabel cur) := by
  induction tm generalizing row with
  | nil => simp [alookup] at hl
  | cons p tmt ih =>
    simp only [List.map_cons, List.nodup_cons] at hnd
    by_cases h : p.1 = col
    · have ht : p.2 = tlabel := by simpa [alookup, h] using hl
      have hcol : col ∉ tmt.map Prod.fst := by rw [← h]; exact hnd.1
      rw [cast_row_types_cons, alookup_cast_row_types_not_mem _ _ _ hcol, h, ht,
          alookup_castCol_self, hc]
      rfl
    · have hl2 : alookup tmt col = some tlabel := by simpa [alookup, h] using hl
      rw [cast_row_types_cons]
      exact ih (castCol row p.1 p.2) hnd.2 hl2
        (by rw [alookup_castCol_ne _ _ _ _ h]; exact hc)

theorem to_none_if_blank_eq_none (v : Val) (h : is_null v = true) :
    to_none_if_blank v = .none := by
  cases v <;> simp_all [is_null, to_none_if_blank]

theorem to_none_if_blank_of_not_null (v : Val) (h : is_null v = false) :
    to_none_if_blank v = v := by
  cases v <;> simp_all [is_null, to_none_if_blank]

theorem cast_value_null (t : String) (cur : Val) (h : is_null cur = true) :
    cast_value t cur = .none := by
  unfold cast_value
  rw [to_none_if_blank_eq_none cur h]
  by_cases ht : t = "str" <;> simp [ht]

theorem cast_value_keep (t : String) (cur : Val) (h : is_null cur = false)
    (hs : t ≠ "str") (hc : convertVal t cur = Option.none) :
    cast_value t cur = cur := by
  unfold cast_value
  rw [to_none_if_blank_of_not_null cur h]
  cases cur with
  | none => simp [is_null] at h
  | str s => simp [hs, hc]
  | int n => simp [hs, hc]
  | float q => simp [hs, hc]
  | bool b => simp [hs, hc]
  | date d => simp [hs, hc]
  | vlist xs => simp [hs, hc]
  | vdict kvs => simp [hs, hc]
  | pat r => simp [hs, hc]

/-- C2: for every row, type map and mapped column present in the row whose
non-null value fails conversion under its type label (including
unrecognized labels), `cast_row_types` keeps the original raw value
unchanged at that key; in particular casting `{"age":"oops"}` with
`{"age":"int"}` returns `{"age":"oops"}`.  (In this embedding failure is
the `Option.none` result of `convertVal`, the model of the caught
exception, so casting by construction never raises for a bad cell.) -/
theorem claim2_cast_failure_keeps_raw :
    (∀ (row : Row) (tm : List (String × String)) (col tlabel : String) (cur : Val),
      (tm.map Prod.fst).Nodup →
      alookup tm col = some tlabel →
      alookup row col = some cur →
      is_null cur = false →
      tlabel ≠ "str" →
      convertVal tlabel cur = Option.none →
      alookup (cast_row_types row tm) col = some cur) ∧
    cast_row_types [("age", Val.str "oops")] [("age", "int")] = [("age", Val.str "oops")] := by
  constructor
  · intro row tm col tlabel cur hnd hl hc hnn hns hfail
    rw [alookup_cast_row_types_mem row tm col tlabel cur hnd hl hc,
        cast_value_keep tlabel cur hnn hns hfail]
  · decide

theorem claim2_witness :
    alookup (cast_row_types [("age", Val.str "oops")] [("age", "int")]) "age" =
      some (Val.str "oops") :=
  claim2_cast_failure_keeps_raw.1 [("age", Val.str "oops")] [("age", "int")] "age" "int"
    (Val.str "oops") (by decide) (by decide) (by decide) (by decide) (by decide) (by decide)

/-- C4: for every row, type map and mapped column present in the row whose
value satisfies the null convention, `cast_row_types` outputs `None` for
that column regardless of the target type label (`str` and `datetime`
labels included), never a cast failure. -/
theorem claim4_null_casts_to_none :
    ∀ (row : Row) (tm : List (String × String)) (col tlabel : String) (cur : Val),
      (tm.map Prod.fst).Nodup →
      alookup tm col = some tlabel →
      alookup row col = some cur →
      is_null cur = true →
      alookup (cast_row_types row tm) col = some Val.none := by
  intro row tm col tlabel cur hnd hl hc hnull
  rw [alookup_cast_row_types_mem row tm col tlabel cur hnd hl hc,
      cast_value_null tlabel cur hnull]

theorem claim4_witness :
    alookup (cast_row_types [("joined", Val.str "N/A")] [("joined", "datetime:%Y-%m-%d")])
        "joined" = some Val.none ∧
    alookup (cast_row_types [("name", Val.str "  null ")] [("name", "str")]) "name" =
      some Val.none :=
  ⟨claim4_null_casts_to_none [("joined", Val.str "N/A")] [("joined", "datetime:%Y-%m-%d")]
      "joined" "datetime:%Y-%m-%d" (Val.str "N/A") (by decide) (by decide) (by decide)
      (by decide),
   claim4_null_casts_to_none [("name", Val.str "  null ")] [("name", "str")] "name" "str"
      (Val.str "  null ") (by decide) (by decide) (by decide) (by decide)⟩

/-- C5: for every row and type map, the cast row has exactly the key set of
the input row (no key invented for mapped columns absent from the row, none
removed), and unmapped columns keep their original values.  The input row is
untouched: `cast_row_types` is a pure function returning a fresh list. -/
theorem claim5_key_set_preserved (row : Row) (tm : List (String × String)) :
    (cast_row_types row tm).map Prod.fst = row.map Prod.fst ∧
    (∀ col, col ∉ tm.map Prod.fst →
      alookup (cast_row_types row tm) col = alookup row col) :=
  ⟨cast_row_types_keys row tm, fun col h => alookup_cast_row_types_not_mem row tm col h⟩

theorem claim5_witness :
    (cast_row_types [("a", Val.str "x"), ("b", Val.str "1")]
        [("b", "int"), ("zz", "int")]).map Prod.fst =
      [("a", Val.str "x"), ("b", Val.str "1")].map Prod.fst ∧
    alookup (cast_row_types [("a", Val.str "x"), ("b", Val.str "1")]
        [("b", "int"), ("zz", "int")]) "a" =
      alookup [("a", Val.str "x"), ("b", Val.str "1")] "a" :=
  ⟨(claim5_key_set_preserved _ _).1,
   (claim5_key_set_preserved [("a", Val.str "x"), ("b", Val.str "1")]
      [("b", "int"), ("zz", "int")]).2 "a" (by decide)⟩

theorem list_map_congr {α β : Type} {f g : α → β} :
    ∀ (l : List α), (∀ a ∈ l, f a = g a) → l.map f = l.map g := by
  intro l
  induction l with
  | nil => intro _; rfl
  | cons a t ih =>
    intro h
    simp only [List.map_cons]
    rw [h a (List.mem_cons_self a t), ih (fun x hx => h x (List.mem_cons_of_mem a hx))]

theorem alookup_mem {α : Type} (l : List (String × α)) (k : String) (a : α)
    (h : alookup l k = some a) : (k, a) ∈ l := by
  induction l with
  | nil => simp [alookup] at h
  | cons p t ih =>
    cases p with
    | mk pk pv =>
      by_cases hp : pk = k
      · rw [alookup, if_pos hp] at h
        have hv := Option.some.inj h
        exact List.mem_cons.mpr (Or.inl (by rw [← hp, ← hv]))
      · rw [alookup, if_neg hp] at h
        exact List.mem_cons_of_mem _ (ih h)

theorem alookup_val_of_mem {α : Type} (row : List (String × α)) (c : String) (cur : α)
    (hnd : (row.map Prod.fst).Nodup) (hl : alookup row c = some cur) :
    ∀ p ∈ row, p.1 = c → p.2 = cur := by
  induction row with
  | nil =>
    intro p hp
    simp at hp
  | cons q t ih =>
    simp only [List.map_cons, List.nodup_cons] at hnd
    intro p hp hpc
    rcases List.mem_cons.mp hp with rfl | hmem
    · rw [alookup, if_pos hpc] at hl
      exact Option.some.inj hl
    · by_cases hq : q.1 = c
      · exfalso
        apply hnd.1
        rw [List.mem_map]
        exact ⟨p, hmem, by rw [hpc, hq]⟩
      · rw [alookup, if_neg hq] at hl
        exact ih hnd.2 hl p hmem hpc

theorem castCol_eq_map (row : Row) (c t : String) (hnd : (row.map Prod.fst).Nodup) :
    castCol row c t = row.map (fun p => if p.1 = c then (p.1, cast_value t p.2) else p) := by
  unfold castCol
  cases hl : alookup row c with
  | none =>
    have hnm : c ∉ row.map Prod.fst := (alookup_eq_none_iff row c).mp hl
    have : ∀ p ∈ row, p.1 ≠ c := by
      intro p hp hpc
      exact hnm (List.mem_map.mpr ⟨p, hp, hpc⟩)
    calc row = row.map (fun p => p) := (List.map_id' row).symm
      _ = row.map (fun p => if p.1 = c then (p.1, cast_value t p.2) else p) :=
        list_map_congr row (fun p hp => by simp [this p hp])
  | some cur =>
    unfold setVal
    apply list_map_congr
    intro p hp
    by_cases hpc : p.1 = c
    · rw [if_pos hpc, if_pos hpc, alookup_val_of_mem row c cur hnd hl p hp hpc]
    · rw [if_neg hpc, if_neg hpc]

theorem cast_row_types_eq_map (row : Row) (tm : List (String × String))
    (hr : (row.map Prod.fst).Nodup) (ht : (tm.map Prod.fst).Nodup) :
    cast_row_types row tm = row.map (apply_tm tm) := by
  induction tm generalizing row with
  | nil =>
    have h0 : apply_tm ([] : List (String × String)) = fun p => p := by
      funext p
      rfl
    rw [h0, List.map_id']
    rfl
  | cons p tmt ih =>
    simp only [List.map_cons, List.nodup_cons] at ht
    rw [cast_row_types_cons]
    have hr2 : ((castCol row p.1 p.2).map Prod.fst).Nodup := by
      rw [castCol_keys]
      exact hr
    rw [ih (castCol row p.1 p.2) hr2 ht.2, castCol_eq_map row p.1 p.2 hr, List.map_map]
    apply list_map_congr
    intro q hq
    simp only [Function.comp]
    by_cases hqc : q.1 = p.1
    · have hnone : alookup tmt p.1 = Option.none :=
        (alookup_eq_none_iff tmt p.1).mpr ht.1
      simp [apply_tm, hqc, hnone, alookup]
    · have hne : ¬ p.1 = q.1 := fun hh => hqc hh.symm
      simp [apply_tm, hqc, alookup, hne]

theorem cast_value_of_convert_some (t : String) (v w : Val) (hnn : is_null v = false)
    (hts : t ≠ "str") (hc : convertVal t v = some w) : cast_value t v = w := by
  unfold cast_value
  rw [to_none_if_blank_of_not_null v hnn]
  cases v with
  | none => simp [is_null] at hnn
  | str s => simp [hts, hc]
  | int n => simp [hts, hc]
  | float q => simp [hts, hc]
  | bool b => simp [hts, hc]
  | date d => simp [hts, hc]
  | vlist xs => simp [hts, hc]
  | vdict kvs => simp [hts, hc]
  | pat r => simp [hts, hc]

theorem convertVal_int_eq (v : Val) :
    convertVal "int" v = (pyFloat v).map (fun q => Val.int (pyTrunc q)) := rfl

theorem convertVal_float_eq (v : Val) :
    convertVal "float" v = (pyFloat v).map Val.float := rfl

theorem convertVal_bool_eq (v : Val) : convertVal "bool" v = to_bool v := rfl

theorem cast_value_int_fix (m : Int) : cast_value "int" (Val.int m) = Val.int m := by
  apply cast_value_of_convert_some "int" (Val.int m) (Val.int m) rfl (by decide)
  rw [convertVal_int_eq]
  simp [pyFloat, PyRat.ofInt, pyTrunc]

theorem cast_value_float_fix (q : PyRat) : cast_value "float" (Val.float q) = Val.float q := by
  apply cast_value_of_convert_some "float" (Val.float q) (Val.float q) rfl (by decide)
  rw [convertVal_float_eq]
  rfl

theorem cast_value_bool_fix (b : Bool) : cast_value "bool" (Val.bool b) = Val.bool b := by
  apply cast_value_of_convert_some "bool" (Val.bool b) (Val.bool b) rfl (by decide)
  rw [convertVal_bool_eq]
  rfl

theorem convertVal_int_shape (v w : Val) (h : convertVal "int" v = some w) :
    ∃ m, w = Val.int m := by
  rw [convertVal_int_eq] at h
  cases hq : pyFloat v with
  | none =>
    rw [hq] at h
    simp at h
  | some q =>
    rw [hq, Option.map_some'] at h
    exact ⟨pyTrunc q, (Option.some.inj h).symm⟩

theorem convertVal_float_shape (v w : Val) (h : convertVal "float" v = some w) :
    ∃ q, w = Val.float q := by
  rw [convertVal_float_eq] at h
  cases hq : pyFloat v with
  | none =>
    rw [hq] at h
    simp at h
  | some q =>
    rw [hq, Option.map_some'] at h
    exact ⟨q, (Option.some.inj h).symm⟩

theorem bool_ifchain_shape {s : String} {w : Val}
    (h : (if s ∈ ["true", "yes", "y", "1"] then some (Val.bool true)
          else if s ∈ ["false", "no", "n", "0"] then some (Val.bool false)
          else Option.none) = some w) : ∃ b, w = Val.bool b := by
  split at h
  · exact ⟨true, (Option.some.inj h).symm⟩
  · split at h
    · exact ⟨false, (Option.some.inj h).symm⟩
    · simp at h

theorem to_bool_shape (v w : Val) (hv : v ≠ Val.none) (h : to_bool v = some w) :
    ∃ b, w = Val.bool b := by
  cases v with
  | none => exact absurd rfl hv
  | bool b => exact ⟨b, (Option.some.inj h).symm⟩
  | str s =>
    simp only [to_bool] at h
    exact bool_ifchain_shape h
  | int n =>
    simp only [to_bool] at h
    exact bool_ifchain_shape h
  | float q =>
    simp only [to_bool] at h
    exact bool_ifchain_shape h
  | date d =>
    simp only [to_bool] at h
    exact bool_ifchain_shape h
  | vlist xs =>
    simp only [to_bool] at h
    exact bool_ifchain_shape h
  | vdict kvs =>
    simp only [to_bool] at h
    exact bool_ifchain_shape h
  | pat r =>
    simp only [to_bool] at h
    exact bool_ifchain_shape h

theorem convertVal_bool_shape (v w : Val) (hv : v ≠ Val.none)
    (h : convertVal "bool" v = some w) : ∃ b, w = Val.bool b := by
  rw [convertVal_bool_eq] at h
  exact to_bool_shape v w hv h

theorem is_null_none_ne (v : Val) (h : is_null v = false) : v ≠ Val.none := by
  intro hh
  rw [hh] at h
  simp [is_null] at h

theorem cast_value_idem (t : String) (hmem : t = "int" ∨ t = "float" ∨ t = "bool") (v : Val) :
    cast_value t (cast_value t v) = cast_value t v := by
  have hts : t ≠ "str" := by
    rcases hmem with h | h | h <;> simp [h]
  by_cases hnull : is_null v = true
  · rw [cast_value_null t v hnull, cast_value_null t Val.none rfl]
  · have hnn : is_null v = false := by
      cases h : is_null v
      · rfl
      · exact absurd h hnull
    cases hcv : convertVal t v with
    | none => rw [cast_value_keep t v hnn hts hcv, cast_value_keep t v hnn hts hcv]
    | some w =>
      rw [cast_value_of_convert_some t v w hnn hts hcv]
      rcases hmem with rfl | rfl | rfl
      · obtain ⟨m, rfl⟩ := convertVal_int_shape v w hcv
        exact cast_value_int_fix m
      · obtain ⟨q, rfl⟩ := convertVal_float_shape v w hcv
        exact cast_value_float_fix q
      · obtain ⟨b, rfl⟩ := convertVal_bool_shape v w (is_null_none_ne v hnn) hcv
        exact cast_value_bool_fix b

/-- C6: casting is idempotent for the `int`, `float` and `bool` labels:
recasting an already-cast row with the same type map returns it
unchanged. -/
theorem claim6_cast_idempotent (row : Row) (tm : List (String × String))
    (hr : (row.map Prod.fst).Nodup) (ht : (tm.map Prod.fst).Nodup)
    (hlab : ∀ p ∈ tm, p.2 = "int" ∨ p.2 = "float" ∨ p.2 = "bool") :
    cast_row_types (cast_row_types row tm) tm = cast_row_types row tm := by
  have hr2 : ((cast_row_types row tm).map Prod.fst).Nodup := by
    rw [cast_row_types_keys]
    exact hr
  rw [cast_row_types_eq_map (cast_row_types row tm) tm hr2 ht,
      cast_row_types_eq_map row tm hr ht, List.map_map]
  apply list_map_congr
  intro p hp
  simp only [Function.comp]
  cases hl : alookup tm p.1 with
  | none => simp [apply_tm, hl]
  | some t =>
    have hlab2 := hlab (p.1, t) (alookup_mem tm p.1 t hl)
    simp [apply_tm, hl, cast_value_idem t hlab2 p.2]

theorem claim6_witness :
    cast_row_types (cast_row_types rowW tmW) tmW = cast_row_types rowW tmW :=
  claim6_cast_idempotent rowW tmW (by decide) (by decide) (by decide)

theorem mem_ite_singleton {c : Prop} [Decidable c] {x i : Issue}
    (h : i ∈ (if c then [x] else ([] : List Issue))) : c ∧ i = x := by
  split at h
  · rename_i hc
    exact ⟨hc, List.mem_singleton.mp h⟩
  · simp at h

theorem mem_ite_nil_singleton {c : Prop} [Decidable c] {x i : Issue}
    (h : i ∈ (if c then ([] : List Issue) else [x])) : ¬ c ∧ i = x := by
  split at h
  · simp at h
  · rename_i hc
    exact ⟨hc, List.mem_singleton.mp h⟩

theorem mem_required_issues (idx : Nat) (raw_row : Row) (col : String) (spec : Spec)
    (i : Issue) (h : i ∈ required_issues idx raw_row col spec) :
    i.column = col ∧ i.rule = "required" := by
  unfold required_issues at h
  obtain ⟨-, rfl⟩ := mem_ite_singleton h
  exact ⟨rfl, rfl⟩

theorem mem_not_null_issues (idx : Nat) (raw_row : Row) (col : String) (spec : Spec)
    (i : Issue) (h : i ∈ not_null_issues idx raw_row col spec) :
    i.column = col ∧ i.rule = "not_null" := by
  unfold not_null_issues at h
  obtain ⟨-, rfl⟩ := mem_ite_singleton h
  exact ⟨rfl, rfl⟩

theorem mem_type_issues (idx : Nat) (col : String) (topt : Option String) (rawv v : Val)
    (i : Issue) (h : i ∈ type_issues idx col topt rawv v) :
    i.column = col ∧ i.rule = "type" ∧ ∃ t, topt = some t ∧ type_ok t v = false := by
  unfold type_issues at h
  cases topt with
  | none => simp at h
  | some t =>
    obtain ⟨hc, rfl⟩ := mem_ite_nil_singleton h
    exact ⟨rfl, rfl, t, rfl, by simpa using hc⟩

theorem mem_range_issues (idx : Nat) (col : String) (mn mx : Option NumB) (v : Val)
    (i : Issue) (h : i ∈ range_issues idx col mn mx v) :
    i.column = col ∧ (i.rule = "min" ∨ i.rule = "max") := by
  unfold range_issues at h
  split at h
  · simp at h
  · rcases List.mem_append.mp h with h | h
    · split at h
      · obtain ⟨-, rfl⟩ := mem_ite_singleton h
        exact ⟨rfl, Or.inl rfl⟩
      · simp at h
    · split at h
      · obtain ⟨-, rfl⟩ := mem_ite_singleton h
        exact ⟨rfl, Or.inr rfl⟩
      · simp at h

theorem mem_len_issues (idx : Nat) (col : String) (lmn lmx : Option NumB) (v : Val)
    (i : Issue) (h : i ∈ len_issues idx col lmn lmx v) :
    i.column = col ∧ (i.rule = "len_min" ∨ i.rule = "len_max") := by
  unfold len_issues at h
  cases v with
  | str s =>
    rcases List.mem_append.mp h with h | h
    · cases lmn with
      | none => simp at h
      | some m =>
        obtain ⟨-, rfl⟩ := mem_ite_singleton h
        exact ⟨rfl, Or.inl rfl⟩
    · cases lmx with
      | none => simp at h
      | some m =>
        obtain ⟨-, rfl⟩ := mem_ite_singleton h
        exact ⟨rfl, Or.inr rfl⟩
  | none => simp at h
  | int n => simp at h
  | float q => simp at h
  | bool b => simp at h
  | date d => simp at h
  | vlist xs => simp at h
  | vdict kvs => simp at h
  | pat r => simp at h

theorem mem_allowed_issues (idx : Nat) (col : String) (alw : Option (List Val)) (v : Val)
    (i : Issue) (h : i ∈ allowed_issues idx col alw v) :
    i.column = col ∧ i.rule = "allowed" := by
  unfold allowed_issues at h
  split at h
  · split at h
    · simp at h
    · split at h
      · simp at h
      · rw [List.mem_singleton] at h
        subst h
        exact ⟨rfl, rfl⟩
  · simp at h

theorem mem_regex_issues (idx : Nat) (col : String) (ropt : Option Regex) (v : Val)
    (i : Issue) (h : i ∈ regex_issues idx col ropt v) :
    i.column = col ∧ i.rule = "regex" := by
  unfold regex_issues at h
  cases ropt with
  | none => simp at h
  | some pattern =>
    cases v with
    | str s =>
      obtain ⟨-, rfl⟩ := mem_ite_singleton h
      exact ⟨rfl, rfl⟩
    | none => simp at h
    | int n => simp at h
    | float q => simp at h
    | bool b => simp at h
    | date d => simp at h
    | vlist xs => simp at h
    | vdict kvs => simp at h
    | pat r => simp at h

theorem mem_unique_issues_for (rows : List Row) (col : String) (tr : UTrack)
    (i : Issue) (h : i ∈ unique_issues_for rows col tr) :
    i.column = col ∧ i.rule = "unique" := by
  unfold unique_issues_for at h
  split at h
  · simp at h
  · rw [List.mem_map] at h
    obtain ⟨j, _, hj⟩ := h
    subst hj
    exact ⟨rfl, rfl⟩

theorem cell_issues_type_char (idx : Nat) (raw_row row : Row) (col : String) (spec : Spec)
    (i : Issue) (h : i ∈ cell_issues idx raw_row row col spec) :
    i.column = col ∧
    (i.rule = "type" →
      ∃ t, spec.type = some t ∧ ∃ v, alookup row col = some v ∧ type_ok t v = false) := by
  unfold cell_issues at h
  rcases List.mem_append.mp h with h | h
  · rcases List.mem_append.mp h with h | h
    · have hc := mem_required_issues idx raw_row col spec i h
      refine ⟨hc.1, fun hr => ?_⟩
      rw [hc.2] at hr
      exact absurd hr (by decide)
    · have hc := mem_not_null_issues idx raw_row col spec i h
      refine ⟨hc.1, fun hr => ?_⟩
      rw [hc.2] at hr
      exact absurd hr (by decide)
  · cases hv : alookup row col with
    | none =>
      rw [hv] at h
      simp at h
    | some v =>
      rw [hv] at h
      rcases List.mem_append.mp h with h | h
      rcases List.mem_append.mp h with h | h
      rcases List.mem_append.mp h with h | h
      rcases List.mem_append.mp h with h | h
      · have hc := mem_type_issues idx col spec.type _ v i h
        obtain ⟨t, hts, htok⟩ := hc.2.2
        exact ⟨hc.1, fun _ => ⟨t, hts, v, rfl, htok⟩⟩
      · have hc := mem_range_issues idx col spec.min spec.max v i h
        refine ⟨hc.1, fun hr => ?_⟩
        rcases hc.2 with h2 | h2 <;> rw [h2] at hr <;> exact absurd hr (by decide)
      · have hc := mem_len_issues idx col spec.len_min spec.len_max v i h
        refine ⟨hc.1, fun hr => ?_⟩
        rcases hc.2 with h2 | h2 <;> rw [h2] at hr <;> exact absurd hr (by decide)
      · have hc := mem_allowed_issues idx col spec.allowed v i h
        refine ⟨hc.1, fun hr => ?_⟩
        rw [hc.2] at hr
        exact absurd hr (by decide)
      · have hc := mem_regex_issues idx col spec.regex v i h
        refine ⟨hc.1, fun hr => ?_⟩
        rw [hc.2] at hr
        exact absurd hr (by decide)

theorem type_ok_unrecognized (t : String)
    (hti : t ≠ "int") (htf : t ≠ "float") (htb : t ≠ "bool") (hts : t ≠ "str")
    (htd : isDatetimeLabel t = false) : ∀ v, type_ok t v = true := by
  intro v
  unfold type_ok
  rw [if_neg hti, if_neg htf, if_neg htb, if_neg hts, if_neg (by simp [htd])]

/-- C9: a rule whose `type` label is none of `int`, `float`, `bool`, `str`,
`datetime:<fmt>` produces no `type` issue for its column on any dataset (the
unrecognized label makes the runtime type check accept everything), while
casting has left every non-null value of that column unchanged. -/
theorem claim9_unrecognized_label_no_type_issue
    (rows : List Row) (rules : List (String × Spec)) (col : String) (spec : Spec) (t : String)
    (hnd : (rules.map Prod.fst).Nodup)
    (hl : alookup rules col = some spec)
    (ht : spec.type = some t)
    (hti : t ≠ "int") (htf : t ≠ "float") (htb : t ≠ "bool") (hts : t ≠ "str")
    (htd : isDatetimeLabel t = false) :
    ((validate_dataset rows rules).filter
        (fun i => i.column == col && i.rule == "type")) = [] ∧
    (∀ v, is_null v = false → cast_value t v = v) := by
  constructor
  · rw [List.filter_eq_nil_iff]
    intro i hi hcond
    simp only [Bool.and_eq_true, beq_iff_eq] at hcond
    simp only [validate_dataset, List.mem_append, List.mem_flatMap] at hi
    rcases hi with ⟨p, hp, rs, hrs, hcell⟩ | ⟨c, hc, hu⟩
    · have hchar := cell_issues_type_char p.1 p.2.1 p.2.2 rs.1 rs.2 i hcell
      have hcc : rs.1 = col := by rw [← hchar.1, hcond.1]
      have hspec : rs.2 = spec :=
        alookup_val_of_mem rules col spec hnd hl rs hrs hcc
      obtain ⟨t2, ht2, v, _, htok⟩ := hchar.2 hcond.2
      rw [hspec, ht] at ht2
      have : t2 = t := (Option.some.inj ht2).symm
      subst this
      rw [type_ok_unrecognized t2 hti htf htb hts htd v] at htok
      exact absurd htok (by decide)
    · have hchar := mem_unique_issues_for rows c _ i hu
      rw [hchar.2] at hcond
      exact absurd hcond.2 (by decide)
  · intro v hv
    apply cast_value_keep t v hv hts
    unfold convertVal
    rw [if_neg hti, if_neg htf, if_neg htb, if_neg (by simp [htd])]

theorem claim9_witness :
    ((validate_dataset rowsW9 rulesW9).filter
        (fun i => i.column == "a" && i.rule == "type")) = [] ∧
    cast_value "word" (Val.str "hello") = Val.str "hello" :=
  ⟨(claim9_unrecognized_label_no_type_issue rowsW9 rulesW9 "a" specW9 "word"
      (by decide) (by decide) rfl (by decide) (by decide) (by decide) (by decide)
      (by decide)).1,
   (claim9_unrecognized_label_no_type_issue rowsW9 rulesW9 "a" specW9 "word"
      (by decide) (by decide) rfl (by decide) (by decide) (by decide) (by decide)
      (by decide)).2 (Val.str "hello") (by decide)⟩

/-- C7: the `regex` check fires only on non-null text interpreted values and
requires the entire string to match; `[0-9]+` rejects `"12a"` (whose prefix
`"12"` does match in full, showing prefix search would not suffice) and the
validator reports the one `regex` issue. -/
theorem claim7_regex_fullmatch :
    (∀ (idx : Nat) (col : String) (pattern : Regex) (v : Val),
      regex_issues idx col (some pattern) v ≠ [] →
      is_null v = false ∧ ∃ s, v = Val.str s ∧ re_fullmatch pattern s = false) ∧
    (∀ (idx : Nat) (col : String) (pattern : Regex) (s : String),
      is_null (Val.str s) = false →
      re_fullmatch pattern s = false →
      regex_issues idx col (some pattern) (Val.str s) =
        [⟨idx, col, "regex", Val.str s, "String does not match required pattern."⟩]) ∧
    re_fullmatch (Regex.plus digitClass) "12" = true ∧
    re_fullmatch (Regex.plus digitClass) "12a" = false ∧
    validate_dataset [[("x", Val.str "12a")]] [("x", digitsRegexSpec)] =
      [⟨0, "x", "regex", Val.str "12a", "String does not match required pattern."⟩] := by
  refine ⟨?_, ?_, by decide, by decide, by decide⟩
  · intro idx col pattern v hne
    cases v with
    | str s =>
      simp only [regex_issues] at hne
      by_cases hcond : (!is_null (Val.str s) && !re_fullmatch pattern s) = true
      · simp only [Bool.and_eq_true, Bool.not_eq_true'] at hcond
        exact ⟨hcond.1, s, rfl, hcond.2⟩
      · rw [if_neg hcond] at hne
        exact absurd rfl hne
    | none => exact absurd rfl hne
    | int n => exact absurd rfl hne
    | float q => exact absurd rfl hne
    | bool b => exact absurd rfl hne
    | date d => exact absurd rfl hne
    | vlist xs => exact absurd rfl hne
    | vdict kvs => exact absurd rfl hne
    | pat r => exact absurd rfl hne
  · intro idx col pattern s hnn hnm
    simp [regex_issues, hnn, hnm]

theorem claim7_witness :
    regex_issues 0 "x" (some (Regex.plus digitClass)) (Val.str "12a") =
      [⟨0, "x", "regex", Val.str "12a", "String does not match required pattern."⟩] :=
  claim7_regex_fullmatch.2.1 0 "x" (Regex.plus digitClass) "12a" (by decide) (by decide)

/-- C10: the validator's runtime type test accepts a boolean under the `int`
and `float` labels (`isinstance(v, int)` is true for Python booleans), and
the range checks treat a boolean as the number `1` (`True`) or `0`
(`False`): under the rule `{"type":"int","min":2}` an interpreted `True`
yields no `type` issue but a `min` issue reporting `True < 2`; end to end, a
raw boolean cell under `{"min":2}` (no cast) yields exactly that `min`
issue. -/
theorem claim10_bool_numeric :
    type_ok "int" (Val.bool true) = true ∧ type_ok "int" (Val.bool false) = true ∧
    type_ok "float" (Val.bool true) = true ∧ type_ok "float" (Val.bool false) = true ∧
    asNum (Val.bool true) = some (PyRat.ofInt 1) ∧
    asNum (Val.bool false) = some (PyRat.ofInt 0) ∧
    type_issues 0 "x" intMin2Spec.type (Val.bool true) (Val.bool true) = [] ∧
    range_issues 0 "x" intMin2Spec.min intMin2Spec.max (Val.bool true) =
      [⟨0, "x", "min", Val.bool true, "Value True < min 2."⟩] ∧
    validate_dataset [[("x", Val.bool true)]] [("x", min2Spec)] =
      [⟨0, "x", "min", Val.bool true, "Value True < min 2."⟩] := by
  refine ⟨rfl, rfl, rfl, rfl, rfl, rfl, by decide, by decide, by decide⟩

/-- C3: the spec's worked validator example evaluates to exactly a `max`
issue for row 1 and a `required` issue for row 2, row 0 contributing
nothing. -/
theorem claim3_example_eval :
    validate_dataset
      [[("age", Val.str "19")], [("age", Val.str "200")], []]
      [("age", ageSpec)] =
      [⟨1, "age", "max", Val.int 200, "Value 200 > max 120."⟩,
       ⟨2, "age", "required", Val.none, "Required column missing or null."⟩] := by
  decide

/-- C1 (evaluation at the defect-revealing input): on rows
`[{"id":"1"},{"id":"1"}]` with rule `{"id":{"unique":True,"type":"int"}}`
the uniqueness pass emits an issue only for row 1.  The emission step
reconstructs first occurrences by comparing the raw value (`"1"`, a string)
against the interpreted tracked value (`1`, an int), which are unequal under
Python `==`, so the first-seen row 0 required by the claim is dropped. -/
theorem claim1_unique_first_occurrence_lost :
    validate_dataset [[("id", Val.str "1")], [("id", Val.str "1")]] [("id", uniqueIntSpec)] =
      [⟨1, "id", "unique", Val.str "1", "Duplicate value violates uniqueness."⟩] ∧
    pyEq (Val.str "1") (Val.int 1) = false := by
  exact ⟨by decide, rfl⟩

/-- Supporting evidence: a row whose cell is a (non-scalar) list is accepted
structurally; with empty rules validation returns normally with an empty
issue list, exactly as the source does. -/
theorem validate_dyn_container_cell_ok :
    validate_dataset_dyn (Val.vlist [Val.vdict [("a", Val.vlist [])]])
      (Val.vdict []) = Except.ok [] := rfl

/-- Supporting evidence: a list-valued cell under a `required` rule is
non-null, so validation returns normally with no issue, as the source
does. -/
theorem validate_dyn_container_cell_required_ok :
    validate_dataset_dyn
        (Val.vlist [Val.vdict [("a", Val.vlist [Val.int 1, Val.int 2])]])
        (Val.vdict [("a", Val.vdict [("required", Val.bool true)])]) =
      Except.ok [] := rfl
